import Mathlib

/-!
Shallow embedding of the PandaSuite rich-text-editor component
(`src/index.js`), a thin adapter between a host-platform bridge and the
external Quill editor.  The adapter's module state (`quill`, `properties`,
`shouldForceFocus`, `validationState`), its pure decision logic
(property diffing, HTML-tag sniffing, debounce delay defaulting) and its
handlers (`updateText`, `updateQuill`, `validate`, the `listen`
callbacks, the blur / selection-change handlers) are translated into
executable Lean definitions.  The external Quill editor itself is
modelled as an opaque document store that records the adapter's calls to
its public mutation entry points; its HTML parsing and delta semantics
are never interpreted, exactly as the adapter treats them.
-/

namespace RTE

/-- One operation of a Quill Delta.  The adapter never looks inside ops;
they are carried opaquely.  `insert` models a plain-text insert op,
`html` an op produced by HTML pasting (kept distinct so that no
information is conflated by the model). -/
inductive Op where
  | insert (s : String)
  | html (h : String)
  deriving DecidableEq, Repr

/-- A Quill Delta: a list of ops (the structured-document payload). -/
structure Delta where
  ops : List Op
  deriving DecidableEq, Repr

/-- A JavaScript value as it flows through this adapter: property values,
content payloads.  `delta` is the structured-document case. -/
inductive JValue where
  | undefined
  | null
  | bool (b : Bool)
  | num (n : Int)
  | str (s : String)
  | delta (d : Delta)
  deriving DecidableEq, Repr

/-- JavaScript truthiness of a `JValue` (used for `!text`,
`properties?.readOnly`, `properties?.content`, `debounceTime || 300`). -/
def JValue.truthy : JValue → Bool
  | .undefined => false
  | .null => false
  | .bool b => b
  | .num n => n != 0
  | .str s => s != ""
  | .delta _ => true

/-- A JS object as delivered by the bridge (`properties`,
`pandaData.properties`, listener argument objects): an association list
from keys to values.  JS objects have unique keys; lookup takes the first
binding. -/
abbrev Props := List (String × JValue)

/-- `obj[key]`: property lookup, `undefined` when the key is absent
(first binding wins, as JS objects have unique keys). -/
def getProp : Props → String → JValue
  | [], _ => .undefined
  | kv :: rest, k => if kv.1 == k then kv.2 else getProp rest k

/-- In-place update of a (present) key, as a value-level model of a JS
field assignment. -/
def setProp (ps : Props) (k : String) (v : JValue) : Props :=
  ps.map (fun kv => if kv.1 == k then (kv.1, v) else kv)

/-- `Object.keys(obj)`. -/
def propKeys (ps : Props) : List String :=
  ps.map Prod.fst

/-! ### The HTML-tag regex

`/<\/?[a-z][\s\S]*>/i` tested against a string: an (unanchored) match is
a `<`, an optional `/`, an ASCII letter (case-insensitive), any
characters, then a `>`. -/

/-- ASCII letter, the case-insensitive `[a-z]` of the regex. -/
def isAsciiLetterChar (c : Char) : Bool :=
  (('a' ≤ c) && (c ≤ 'z')) || (('A' ≤ c) && (c ≤ 'Z'))

/-- Does a match of `<\/?[a-z][\s\S]*>` start at the head of this
character list?  Since `[\s\S]*` matches anything, this holds exactly
when the mandatory prefix is present and some `>` occurs after the
letter. -/
def tagAt : List Char → Bool
  | '<' :: '/' :: c :: rest => isAsciiLetterChar c && rest.contains '>'
  | '<' :: c :: rest => isAsciiLetterChar c && rest.contains '>'
  | _ => false

/-- Unanchored search: does any suffix start a match? -/
def hasHtmlTag : List Char → Bool
  | [] => false
  | c :: rest => tagAt (c :: rest) || hasHtmlTag rest

/-- `/<\/?[a-z][\s\S]*>/i.test(text)` of `updateText`. -/
def htmlTagTest (s : String) : Bool :=
  hasHtmlTag s.data

/-! ### The Quill editor, modelled opaquely

The document is remembered as whichever public mutation entry point last
produced it; `getText` / `getContents` / `getSemanticHTML` are read-outs
of that record.  HTML parsing and delta application belong to the
external Quill library, so the read-outs of the `fromHtml` / `fromValue`
cases are opaque placeholders: no claim depends on their values, only on
which entry point was used. -/

/-- The editor document, as last set through the adapter. -/
inductive Doc where
  | fromText (t : String)
  | fromHtml (h : String)
  | fromValue (v : JValue)
  deriving DecidableEq, Repr

/-- `quill.getText()`.  Quill documents always end in a newline; for the
externally-parsed cases the text is an opaque function of the input. -/
def docText : Doc → String
  | .fromText t => t ++ "\n"
  | .fromHtml h => h ++ "\n"
  | .fromValue (.delta d) =>
      String.join (d.ops.map (fun o => match o with
        | .insert s => s
        | .html h => h))
  | .fromValue _ => "\n"

/-- `quill.getContents()`. -/
def docContents : Doc → Delta
  | .fromText t => ⟨[.insert (t ++ "\n")]⟩
  | .fromHtml h => ⟨[.html h]⟩
  | .fromValue (.delta d) => d
  | .fromValue _ => ⟨[]⟩

/-- `quill.getSemanticHTML()` (opaque read-out). -/
def docHtml : Doc → String
  | .fromText t => t
  | .fromHtml h => h
  | .fromValue (.delta d) =>
      String.join (d.ops.map (fun o => match o with
        | .insert s => s
        | .html h => h))
  | .fromValue _ => ""

/-- The state of the Quill instance visible to this adapter. -/
structure Editor where
  doc : Doc
  enabled : Bool
  focused : Bool
  deriving DecidableEq, Repr

def Editor.getText (ed : Editor) : String := docText ed.doc

def Editor.getContents (ed : Editor) : Delta := docContents ed.doc

def Editor.getSemanticHTML (ed : Editor) : String := docHtml ed.doc

def Editor.hasFocus (ed : Editor) : Bool := ed.focused

/-- A call made by the adapter to a Quill mutation entry point, recorded
so that theorems can speak about which route content took. -/
inductive QuillCall where
  | enable (b : Bool)
  | pasteHTML (h : String)
  | setTextCall (t : String)
  | setContentsCall (v : JValue)
  | focusCall
  deriving DecidableEq, Repr

/-- Effect of one Quill call on the editor state. -/
def applyCall (ed : Editor) : QuillCall → Editor
  | .enable b => { ed with enabled := b }
  | .pasteHTML h => { ed with doc := .fromHtml h }
  | .setTextCall t => { ed with doc := .fromText t }
  | .setContentsCall v => { ed with doc := .fromValue v }
  | .focusCall => { ed with focused := true }

def applyCalls (ed : Editor) (cs : List QuillCall) : Editor :=
  cs.foldl applyCall ed

/-! ### `updateText` (src/index.js lines 55-76) -/

/-- `updateText(text)`: early return on a falsy payload; otherwise
optionally disable, route the content by type and by the HTML regex,
and re-enable.  Returns the new editor state together with the list of
Quill calls made. -/
def updateText (props : Props) (ed : Editor) (text : JValue) :
    Editor × List QuillCall :=
  if !text.truthy then (ed, [])
  else
    let shouldDisable := !(getProp props "readOnly").truthy && !ed.hasFocus
    let contentCall : QuillCall :=
      match text with
      | .str s => if htmlTagTest s then .pasteHTML s else .setTextCall s
      | v => .setContentsCall v
    let calls :=
      if shouldDisable then [QuillCall.enable false, contentCall, QuillCall.enable true]
      else [contentCall]
    (applyCalls ed calls, calls)

/-! ### Validation state, queryable snapshot, outbound events -/

/-- The module-level `validationState` object (src/index.js 27-30). -/
structure ValidationState where
  validated : Bool
  isEmpty : Bool
  deriving DecidableEq, Repr

/-- The queryable snapshot sent to the host (src/index.js 32-39). -/
structure Queryable where
  text : String
  html : String
  content : Delta
  validation : ValidationState
  deriving DecidableEq, Repr

/-- `getQueryable()` over a given editor and validation state. -/
def getQueryable (ed : Editor) (vs : ValidationState) : Queryable :=
  { text := ed.getText
    html := ed.getSemanticHTML
    content := ed.getContents
    validation := vs }

/-- Outbound bridge events this model tracks. -/
inductive Event where
  | updated (q : Queryable)
  | onValidated (q : Queryable)
  | onFocused (q : Queryable)
  deriving DecidableEq, Repr

/-- A JS runtime error.  The adapter only ever runs into `TypeError`
(property access / creation on `null`, `undefined` or a primitive); the
file is an ES module, hence strict mode, so assigning a property to a
string primitive throws rather than being ignored. -/
inductive JSError where
  | typeError
  deriving DecidableEq, Repr

/-! ### `validate` and `getQueryable` (src/index.js 32-53) -/

/-- JS `String.prototype.trim()`: strip leading and trailing whitespace
(modelled over the ASCII whitespace characters, the only ones this
adapter's payloads can meaningfully carry). -/
def jsTrim (s : String) : String :=
  ⟨((s.data.dropWhile Char.isWhitespace).reverse.dropWhile Char.isWhitespace).reverse⟩

/-- `properties.content.ops = queryable.content.ops` (line 49): succeeds
only when `properties.content` is an object (a Delta); on `undefined`,
`null` or a primitive it throws a `TypeError` (strict mode). -/
def setContentOps (ps : Props) (ops : List Op) : Except JSError Props :=
  match getProp ps "content" with
  | .delta _ => .ok (setProp ps "content" (.delta ⟨ops⟩))
  | _ => .error .typeError

/-- `validate()` given a non-null `quill`: trim the text, overwrite both
validation flags, snapshot, write the snapshot ops back into
`properties.content`, send `UPDATED` and `onValidated`.  The new
validation state is returned outside the `Except` because the two flag
assignments (lines 43-44) precede the possibly-throwing line 49: a throw
does not roll them back. -/
def validateCore (ps : Props) (ed : Editor) :
    ValidationState × Except JSError (Props × List Event) :=
  let text := (jsTrim ed.getText)
  let vs : ValidationState := { validated := true, isEmpty := text.length == 0 }
  let q := getQueryable ed vs
  match setContentOps ps q.content.ops with
  | .error e => (vs, .error e)
  | .ok ps1 => (vs, .ok (ps1, [Event.updated q, Event.onValidated q]))

/-! ### Module state and the bridge handlers (src/index.js 12-14, 213-280) -/

/-- The adapter's module-level mutable state. -/
structure AdapterState where
  quill : Option Editor
  props : Props
  shouldForceFocus : Bool
  validation : ValidationState
  deriving DecidableEq, Repr

/-- The `validate` listen handler (line 243-245): calls `validate()`
unconditionally; `quill.getText()` on a null `quill` throws before any
state is touched. -/
def validateListener (s : AdapterState) :
    AdapterState × Except JSError (List Event) :=
  match s.quill with
  | none => (s, .error .typeError)
  | some ed =>
    let (vs, r) := validateCore s.props ed
    match r with
    | .error e => ({ s with validation := vs }, .error e)
    | .ok (ps1, evts) => ({ s with validation := vs, props := ps1 }, .ok evts)

/-- The `setText` listen handler (lines 247-253): destructure `text`
from the (possibly absent) argument object, and only if `quill` is
non-null run `updateText`. -/
def setTextListener (s : AdapterState) (arg : Option Props) :
    AdapterState × List QuillCall × List Event :=
  let text := getProp (arg.getD []) "text"
  match s.quill with
  | none => (s, [], [])
  | some ed =>
    let (ed1, calls) := updateText s.props ed text
    ({ s with quill := some ed1 }, calls, [])

/-- The `setContent` listen handler (lines 255-261). -/
def setContentListener (s : AdapterState) (arg : Option Props) :
    AdapterState × List QuillCall × List Event :=
  let content := getProp (arg.getD []) "content"
  match s.quill with
  | none => (s, [], [])
  | some ed =>
    let (ed1, calls) := updateText s.props ed content
    ({ s with quill := some ed1 }, calls, [])

/-- The `clearText` listen handler (lines 263-267): `updateText("")`
behind the null guard. -/
def clearTextListener (s : AdapterState) :
    AdapterState × List QuillCall × List Event :=
  match s.quill with
  | none => (s, [], [])
  | some ed =>
    let (ed1, calls) := updateText s.props ed (.str "")
    ({ s with quill := some ed1 }, calls, [])

/-- The `focusText` listen handler (lines 269-279): focus the editor,
then, if a window blur is pending, emit `onFocused` and clear the
flag. -/
def focusTextListener (s : AdapterState) :
    AdapterState × List QuillCall × List Event :=
  match s.quill with
  | none => (s, [], [])
  | some ed =>
    let ed1 := applyCall ed .focusCall
    if s.shouldForceFocus then
      ({ s with quill := some ed1, shouldForceFocus := false },
        [QuillCall.focusCall], [Event.onFocused (getQueryable ed1 s.validation)])
    else
      ({ s with quill := some ed1 }, [QuillCall.focusCall], [])

/-! ### `updateQuill` and the `onUpdate` reconciliation (lines 22-25, 78-83, 224-241) -/

/-- `updateQuill()`: apply `properties.content` when truthy, then set
the enabled state from `readOnly`.  Acts in place on the existing
editor. -/
def updateQuill (props : Props) (ed : Editor) : Editor × List QuillCall :=
  let c := getProp props "content"
  let (ed1, calls1) := if c.truthy then updateText props ed c else (ed, [])
  let en := !(getProp props "readOnly").truthy
  (applyCall ed1 (.enable en), calls1 ++ [QuillCall.enable en])

/-- `mutableProperties[key]` truthiness (lines 22-25). -/
def isMutableKey (k : String) : Bool :=
  k == "content" || k == "readOnly"

/-- The changed keys of an update (lines 225-227): the keys of the new
snapshot whose values differ (lodash `isEqual`, i.e. deep value
equality) from the stored properties. -/
def diffKeys (old new : Props) : List String :=
  (propKeys new).filter (fun k => !(decide (getProp old k = getProp new k)))

/-- What the `onUpdate` handler decides to do. -/
inductive UpdateAction where
  | noop
  | doUpdateQuill
  | doInitQuill
  deriving DecidableEq, Repr

/-- The `onUpdate` handler (lines 224-241), at the level of the stored
properties and the action taken: early return when nothing changed;
otherwise adopt the new snapshot and either refresh in place
(`updateQuill`, preserving the editor instance) when every changed key
is mutable, or fully reinitialize (`initQuill`). -/
def onUpdateHandler (old new : Props) : Props × UpdateAction :=
  let dk := diffKeys old new
  if dk.isEmpty then (old, .noop)
  else if dk.all isMutableKey then (new, .doUpdateQuill)
  else (new, .doInitQuill)

/-! ### Focus/blur signaling (lines 14, 18-20, 201-208, 269-279)

The pending-focus flag `shouldForceFocus` together with the emissions of
`onFocused`, as a transition system over the events that touch them. -/

/-- A selection range (Quill `{ index, length }`). -/
structure Range where
  index : Nat
  length : Nat
  deriving DecidableEq, Repr

/-- The events that can touch the pending-focus flag or emit
`onFocused`: a window blur, a Quill selection-change (carrying the new
and old ranges), and the `focusText` listen event. -/
inductive FocusEvent where
  | windowBlur
  | selectionChange (range oldRange : Option Range)
  | focusTextEvent
  deriving DecidableEq, Repr

/-- One step of the flag machine: the new flag value and the number of
`onFocused` notifications emitted by that event's handler. -/
def focusStep (flag : Bool) : FocusEvent → Bool × Nat
  | .windowBlur => (true, 0)
  | .selectionChange r old =>
      if flag || (r.isSome && old.isNone) then (false, 1) else (flag, 0)
  | .focusTextEvent =>
      if flag then (false, 1) else (flag, 0)

/-- Run the flag machine over a list of events, totalling emissions. -/
def focusRun (flag : Bool) : List FocusEvent → Bool × Nat
  | [] => (flag, 0)
  | e :: es =>
    let (f1, n1) := focusStep flag e
    let (f2, n2) := focusRun f1 es
    (f2, n1 + n2)

/-! ### Debounced validation (lines 192-199)

`properties.debounceTime || 300` and the trailing-edge behaviour of
lodash `debounce`, modelled as a timer: a keystroke at time `t`
(re)schedules the single pending invocation for `t + T`; a pending
invocation fires only if no further keystroke arrives before its
deadline. -/

/-- Whether the debounced validation handler is registered at all
(line 192: `if (properties?.debounce)`). -/
def debounceEnabled (ps : Props) : Bool :=
  (getProp ps "debounce").truthy

/-- `properties.debounceTime || 300`. -/
def effectiveDebounce (ps : Props) : JValue :=
  let v := getProp ps "debounceTime"
  if v.truthy then v else .num 300

/-- Model of lodash trailing-edge `debounce`: given the deadline of the
pending invocation (if any) and the remaining keystroke times in
increasing order, the list of times at which `validate` fires. -/
def debounceSim (T : Nat) : Option Nat → List Nat → List Nat
  | none, [] => []
  | some d, [] => [d]
  | none, t :: ts => debounceSim T (some (t + T)) ts
  | some d, t :: ts =>
      if d ≤ t then d :: debounceSim T (some (t + T)) ts
      else debounceSim T (some (t + T)) ts

/-- The fire times produced by a keystroke sequence starting with no
pending invocation. -/
def debounceRun (T : Nat) (ts : List Nat) : List Nat :=
  debounceSim T none ts

/-! ### Vocabulary for the theorems -/

/-- The single content-application call `updateText` makes for a truthy
payload: the type test (`typeof text === "string"`) and the regex test
select among the three Quill entry points. -/
def routeCall : JValue → QuillCall
  | .str s => if htmlTagTest s then .pasteHTML s else .setTextCall s
  | v => .setContentsCall v

/-- Is this call one of the three content-application entry points
(as opposed to `enable` / `focus`)? -/
def isContentCall : QuillCall → Bool
  | .enable _ => false
  | .focusCall => false
  | _ => true

/-- Does this event arm the focus machine: a window blur (which sets the
pending flag) or a no-selection-to-some-selection change (which emits
directly)? -/
def armsFocus : FocusEvent → Bool
  | .windowBlur => true
  | .selectionChange r old => r.isSome && old.isNone
  | .focusTextEvent => false

/-- A sample editor (empty document, enabled, unfocused). -/
def edSample : Editor :=
  { doc := .fromText "", enabled := true, focused := false }

/-- A sample editor holding the text "hi". -/
def edHi : Editor :=
  { doc := .fromText "hi", enabled := true, focused := false }

/-- A sample adapter state: initialized editor holding "hi", structured
(Delta) content property, no pending blur, validation not yet run. -/
def stateHi : AdapterState :=
  { quill := some edHi
    props := [("content", JValue.delta ⟨[]⟩)]
    shouldForceFocus := false
    validation := { validated := false, isEmpty := false } }

/-- A sample uninitialized adapter state (`quill` still null). -/
def stateNoQuill : AdapterState :=
  { quill := none
    props := []
    shouldForceFocus := false
    validation := { validated := false, isEmpty := false } }

end RTE

namespace RTE

example : htmlTagTest "<b>hi</b>" = true := by decide
example : htmlTagTest "hi" = false := by decide
example : htmlTagTest "a < b and b > a" = false := by decide
example : htmlTagTest "</em>" = true := by decide

/-! ### Helper lemmas -/

/-- `updateText` on a falsy payload is an identity making no calls. -/
theorem updateText_falsy (ps : Props) (ed : Editor) (v : JValue)
    (hv : v.truthy = false) : updateText ps ed v = (ed, []) := by
  simp [updateText, hv]

/-- Unfolding of `updateText` on a truthy payload: the disable sandwich
around the routed content call, or the routed call alone. -/
theorem updateText_truthy (ps : Props) (ed : Editor) (v : JValue)
    (hv : v.truthy = true) :
    updateText ps ed v =
      (if !(getProp ps "readOnly").truthy && !ed.hasFocus then
        (applyCalls ed [QuillCall.enable false, routeCall v, QuillCall.enable true],
          [QuillCall.enable false, routeCall v, QuillCall.enable true])
      else (applyCalls ed [routeCall v], [routeCall v])) := by
  cases v <;> simp_all [updateText, routeCall, JValue.truthy] <;> split <;> simp_all

/-- The routed content call is a content call, not `enable`/`focus`. -/
theorem isContentCall_routeCall (v : JValue) : isContentCall (routeCall v) = true := by
  cases v with
  | str s => by_cases h : htmlTagTest s = true <;> simp [routeCall, h, isContentCall]
  | undefined => rfl
  | null => rfl
  | bool b => rfl
  | num n => rfl
  | delta d => rfl

/-- Applying the routed content call never touches the enabled flag. -/
theorem routeCall_enabled (ed : Editor) (v : JValue) :
    (applyCall ed (routeCall v)).enabled = ed.enabled := by
  cases v with
  | str s => by_cases h : htmlTagTest s = true <;> simp [routeCall, h, applyCall]
  | undefined => rfl
  | null => rfl
  | bool b => rfl
  | num n => rfl
  | delta d => rfl

/-- Updating a present key makes the lookup return the new value. -/
theorem getProp_setProp (ps : Props) (k : String) (w : JValue)
    (h : getProp ps k ≠ JValue.undefined) :
    getProp (setProp ps k w) k = w := by
  induction ps with
  | nil => exact absurd rfl h
  | cons kv rest ih =>
    by_cases hk : (kv.1 == k) = true
    · simp [getProp, setProp, hk]
    · rw [Bool.not_eq_true] at hk
      simp only [getProp, setProp, List.map_cons, hk, Bool.false_eq_true, if_false] at h ⊢
      exact ih h

/-- If no event in the trace arms the machine and the flag is down, the
trace emits nothing and the flag stays down. -/
theorem focusRun_unarmed (es : List FocusEvent)
    (h : ∀ e ∈ es, armsFocus e = false) :
    focusRun false es = (false, 0) := by
  induction es with
  | nil => rfl
  | cons e es ih =>
    have he : armsFocus e = false := h e (List.mem_cons_self e es)
    have hstep : focusStep false e = (false, 0) := by
      cases e with
      | windowBlur => simp [armsFocus] at he
      | selectionChange r old =>
        have he2 : (r.isSome && old.isNone) = false := by simpa [armsFocus] using he
        simp [focusStep, he2]
      | focusTextEvent => rfl
    have hrest := ih (fun e' he' => h e' (List.mem_cons_of_mem e he'))
    simp [focusRun, hstep, hrest]

/-- From a raised flag, a trace with no arming event emits at most
once. -/
theorem focusRun_pending (es : List FocusEvent)
    (h : ∀ e ∈ es, armsFocus e = false) :
    (focusRun true es).2 ≤ 1 := by
  cases es with
  | nil => simp [focusRun]
  | cons e es =>
    have hstep : focusStep true e = (false, 1) := by
      cases e with
      | windowBlur => simpa [armsFocus] using h _ (List.mem_cons_self _ _)
      | selectionChange r old => simp [focusStep]
      | focusTextEvent => rfl
    have hrest := focusRun_unarmed es (fun e' he' => h e' (List.mem_cons_of_mem e he'))
    simp [focusRun, hstep, hrest]

/-- A scheduled debounce invocation chased by keystrokes that each
arrive within the window fires exactly once, at the last keystroke plus
the window. -/
theorem debounceSim_pending (T : Nat) :
    ∀ (rest : List Nat) (t : Nat), List.Chain (fun a b => b < a + T) t rest →
      debounceSim T (some (t + T)) rest = [rest.getLastD t + T]
  | [], t, _ => by simp [debounceSim]
  | u :: us, t, h => by
    cases h with
    | cons hlt hchain =>
      have hnle : ¬ (t + T ≤ u) := by omega
      simp only [debounceSim, if_neg hnle, List.getLastD_cons]
      exact debounceSim_pending T us u hchain

/-- Filtering the calls of `updateText` on a truthy payload down to the
content-application entry points leaves exactly the routed call. -/
theorem isContentCall_enable (b : Bool) : isContentCall (.enable b) = false := rfl

theorem updateText_contentCalls (ps : Props) (ed : Editor) (v : JValue)
    (hv : v.truthy = true) :
    (updateText ps ed v).2.filter isContentCall = [routeCall v] := by
  rw [updateText_truthy ps ed v hv]
  by_cases hc : (!(getProp ps "readOnly").truthy && !ed.hasFocus) = true
  · simp [hc, List.filter_cons, isContentCall_enable, isContentCall_routeCall v]
  · rw [Bool.not_eq_true] at hc
    simp [hc, List.filter_cons, isContentCall_routeCall v]

/-- `validateCore` when the stored content property is a Delta: both
flags overwritten, ops written back, both events emitted. -/
theorem validateCore_delta (ps : Props) (ed : Editor) (d : Delta)
    (hc : getProp ps "content" = .delta d) :
    validateCore ps ed =
      (⟨true, (jsTrim ed.getText).length == 0⟩,
        .ok (setProp ps "content" (.delta ed.getContents),
          [Event.updated (getQueryable ed ⟨true, (jsTrim ed.getText).length == 0⟩),
           Event.onValidated (getQueryable ed ⟨true, (jsTrim ed.getText).length == 0⟩)])) := by
  simp [validateCore, setContentOps, hc, getQueryable]

/-- `validateCore` when the stored content property is not an object:
both flags are still overwritten (lines 43-44 precede the throw), then
the ops assignment throws. -/
theorem validateCore_err (ps : Props) (ed : Editor)
    (hc : ∀ d : Delta, getProp ps "content" ≠ .delta d) :
    validateCore ps ed = (⟨true, (jsTrim ed.getText).length == 0⟩, .error .typeError) := by
  cases hcv : getProp ps "content" with
  | delta d => exact absurd hcv (hc d)
  | undefined => simp [validateCore, setContentOps, hcv, getQueryable]
  | null => simp [validateCore, setContentOps, hcv, getQueryable]
  | bool b => simp [validateCore, setContentOps, hcv, getQueryable]
  | num n => simp [validateCore, setContentOps, hcv, getQueryable]
  | str t => simp [validateCore, setContentOps, hcv, getQueryable]

/-- The `validate` listener on an initialized editor with Delta content. -/
theorem validateListener_delta (s : AdapterState) (ed : Editor) (d : Delta)
    (hq : s.quill = some ed) (hc : getProp s.props "content" = .delta d) :
    validateListener s =
      ({ s with
          validation := ⟨true, (jsTrim ed.getText).length == 0⟩
          props := setProp s.props "content" (.delta ed.getContents) },
        .ok [Event.updated (getQueryable ed ⟨true, (jsTrim ed.getText).length == 0⟩),
          Event.onValidated (getQueryable ed ⟨true, (jsTrim ed.getText).length == 0⟩)]) := by
  obtain ⟨q, ps, f, vl⟩ := s
  have hq' : q = some ed := hq
  subst hq'
  have hc' : getProp ps "content" = .delta d := hc
  simp only [validateListener]
  rw [validateCore_delta ps ed d hc']

/-- The `validate` listener on an initialized editor whose stored content
property is not an object: flags overwritten, then a TypeError. -/
theorem validateListener_err (s : AdapterState) (ed : Editor)
    (hq : s.quill = some ed) (hc : ∀ d : Delta, getProp s.props "content" ≠ .delta d) :
    validateListener s =
      ({ s with validation := ⟨true, (jsTrim ed.getText).length == 0⟩ },
        .error .typeError) := by
  obtain ⟨q, ps, f, vl⟩ := s
  have hq' : q = some ed := hq
  subst hq'
  have hc' : ∀ d : Delta, getProp ps "content" ≠ .delta d := hc
  simp only [validateListener]
  rw [validateCore_err ps ed hc']

/-! ### The claims -/

/-- C1: on a host property update, the handler computes the changed keys
of the delivered snapshot by deep value inequality against the stored
properties.  If no key changed, nothing happens (early return, stored
properties kept).  If every changed key is in the live-mutable set
(content, readOnly), the snapshot is adopted and only the in-place
refresh `updateQuill` runs, preserving the editor instance.  Otherwise
the snapshot is adopted and the editor is fully reinitialized
(`initQuill`). -/
theorem C1_onUpdate_reconciliation (old new : Props) :
    (diffKeys old new = [] → onUpdateHandler old new = (old, .noop)) ∧
    (diffKeys old new ≠ [] → (∀ k ∈ diffKeys old new, isMutableKey k = true) →
      onUpdateHandler old new = (new, .doUpdateQuill)) ∧
    ((∃ k ∈ diffKeys old new, ¬ isMutableKey k = true) →
      onUpdateHandler old new = (new, .doInitQuill)) := by
  refine ⟨fun h => ?_, fun h hall => ?_, fun h => ?_⟩
  · simp [onUpdateHandler, h]
  · have h1 : (diffKeys old new).isEmpty = false := by
      cases hdk : diffKeys old new with
      | nil => exact absurd hdk h
      | cons a as => rfl
    have h2 : (diffKeys old new).all isMutableKey = true := List.all_eq_true.mpr hall
    simp [onUpdateHandler, h1, h2]
  · obtain ⟨k, hk, hnk⟩ := h
    have h1 : (diffKeys old new).isEmpty = false := by
      cases hdk : diffKeys old new with
      | nil => rw [hdk] at hk; cases hk
      | cons a as => rfl
    have h2 : (diffKeys old new).all isMutableKey = false := by
      rcases Bool.eq_false_or_eq_true ((diffKeys old new).all isMutableKey) with hc | hc
      · exact absurd (List.all_eq_true.mp hc k hk) hnk
      · exact hc
    simp [onUpdateHandler, h1, h2]

/-- Witness for C1: a content-only change is applied in place via
`updateQuill`. -/
theorem C1_onUpdate_reconciliation_witness :
    onUpdateHandler [("content", JValue.str "a"), ("toolbar", JValue.bool true)]
        [("content", JValue.str "b"), ("toolbar", JValue.bool true)] =
      ([("content", JValue.str "b"), ("toolbar", JValue.bool true)],
        UpdateAction.doUpdateQuill) :=
  (C1_onUpdate_reconciliation _ _).2.1 (by decide) (by decide)

/-- C2: a non-empty string payload matching the HTML-tag regex is
applied via the HTML-paste entry point; a non-empty string not matching
it is applied via plain-text assignment; a truthy non-string payload is
applied via `setContents`.  In particular "<b>hi</b>" routes to HTML
application and "hi" to plain-text assignment. -/
theorem C2_updateText_routing (ps : Props) (ed : Editor) :
    (∀ s : String, s ≠ "" →
      (updateText ps ed (.str s)).2.filter isContentCall =
        [if htmlTagTest s then QuillCall.pasteHTML s else QuillCall.setTextCall s]) ∧
    (∀ v : JValue, v.truthy = true → (∀ s, v ≠ JValue.str s) →
      (updateText ps ed v).2.filter isContentCall = [QuillCall.setContentsCall v]) ∧
    (updateText ps ed (.str "<b>hi</b>")).2.filter isContentCall =
      [QuillCall.pasteHTML "<b>hi</b>"] ∧
    (updateText ps ed (.str "hi")).2.filter isContentCall =
      [QuillCall.setTextCall "hi"] := by
  refine ⟨fun s hs => ?_, fun v hv hvs => ?_, ?_, ?_⟩
  · rw [updateText_contentCalls ps ed _ (by simp [JValue.truthy, hs])]
    rfl
  · rw [updateText_contentCalls ps ed v hv]
    cases v with
    | str s => exact absurd rfl (hvs s)
    | undefined => rfl
    | null => rfl
    | bool b => rfl
    | num n => rfl
    | delta d => rfl
  · rw [updateText_contentCalls ps ed _ (by decide)]
    decide
  · rw [updateText_contentCalls ps ed _ (by decide)]
    decide

/-- Witness for C2: the plain string "hi" at a concrete state. -/
theorem C2_updateText_routing_witness :
    (updateText [] edSample (.str "hi")).2.filter isContentCall =
      [if htmlTagTest "hi" then QuillCall.pasteHTML "hi" else QuillCall.setTextCall "hi"] :=
  (C2_updateText_routing [] edSample).1 "hi" (by decide)

/-- C3 counterexample: at a concrete initialized state whose document
holds "hi" (with structured content property), delivering an
empty-string content payload is a no-op on the document, so the
subsequent validate yields isEmpty = false, not true as claimed; and at
a state whose content property is a plain string, validate throws a
TypeError before emitting, so not every call emits both events. -/
theorem C3_counterexample :
    setTextListener stateHi (some [("text", JValue.str "")]) = (stateHi, [], []) ∧
    (validateListener stateHi).1.validation.isEmpty = false ∧
    (validateListener { stateHi with props := [("content", JValue.str "x")] }).2 =
      Except.error JSError.typeError := by
  refine ⟨?_, ?_, ?_⟩ <;> rfl

/-- C3 (amended): when the editor is initialized and the stored content
property is a structured document, every call to validate sets
validated to true, sets isEmpty to true exactly when the editor text
with surrounding whitespace trimmed has length zero, and emits both an
UPDATED event and an onValidated event carrying the queryable snapshot.
Setting content to an empty string leaves the document unchanged (the
empty string is a falsy payload), so a subsequent validate yields
isEmpty = true only when the trimmed editor text was already empty. -/
theorem C3_validate_behaviour (s : AdapterState) (ed : Editor) (d : Delta)
    (hq : s.quill = some ed) (hc : getProp s.props "content" = .delta d) :
    (validateListener s).1.validation.validated = true ∧
    ((validateListener s).1.validation.isEmpty = true ↔ (jsTrim ed.getText).length = 0) ∧
    (validateListener s).2 =
      Except.ok [Event.updated (getQueryable ed (validateListener s).1.validation),
        Event.onValidated (getQueryable ed (validateListener s).1.validation)] := by
  rw [validateListener_delta s ed d hq hc]
  refine ⟨rfl, ?_, rfl⟩
  simp

/-- Witness for C3 (amended) at the concrete state `stateHi`. -/
theorem C3_validate_behaviour_witness :
    (validateListener stateHi).1.validation.validated = true ∧
    ((validateListener stateHi).1.validation.isEmpty = true ↔
      (jsTrim edHi.getText).length = 0) :=
  ⟨(C3_validate_behaviour stateHi edHi ⟨[]⟩ rfl rfl).1,
    (C3_validate_behaviour stateHi edHi ⟨[]⟩ rfl rfl).2.1⟩

/-- C9: validate unconditionally writes the current editor contents' ops
into properties.content; when the stored content property is a
structured document the write succeeds and the stored ops afterwards
equal the ops of the emitted snapshot's content; when the stored content
property is absent (undefined) or a plain string, validate throws a
TypeError rather than being silently ignored. -/
theorem C9_validate_content_ops (s : AdapterState) (ed : Editor) (d : Delta) (t : String)
    (hq : s.quill = some ed) :
    (getProp s.props "content" = .delta d →
      getProp (validateListener s).1.props "content" =
        .delta (getQueryable ed (validateListener s).1.validation).content ∧
      (validateListener s).2 =
        Except.ok [Event.updated (getQueryable ed (validateListener s).1.validation),
          Event.onValidated (getQueryable ed (validateListener s).1.validation)]) ∧
    (getProp s.props "content" = .undefined →
      (validateListener s).2 = Except.error JSError.typeError) ∧
    (getProp s.props "content" = .str t →
      (validateListener s).2 = Except.error JSError.typeError) := by
  refine ⟨fun hc => ?_, fun hc => ?_, fun hc => ?_⟩
  · rw [validateListener_delta s ed d hq hc]
    refine ⟨?_, rfl⟩
    have hne : getProp s.props "content" ≠ JValue.undefined := by
      rw [hc]; intro h; cases h
    exact getProp_setProp s.props "content" (.delta ed.getContents) hne
  · rw [validateListener_err s ed hq (fun d' h => by rw [hc] at h; cases h)]
  · rw [validateListener_err s ed hq (fun d' h => by rw [hc] at h; cases h)]

/-- Witness for C9 at the concrete state `stateHi`. -/
theorem C9_validate_content_ops_witness :
    getProp (validateListener stateHi).1.props "content" =
      .delta (getQueryable edHi (validateListener stateHi).1.validation).content :=
  ((C9_validate_content_ops stateHi edHi ⟨[]⟩ "" rfl).1 rfl).1

/-- C10: each of the setText, setContent, clearText and focusText listen
handlers is a null-guarded no-op before the editor is initialized
(quill still null), while the validate listener dereferences quill
unconditionally and throws a TypeError in that state: validate is only
safe once initialization has completed. -/
theorem C10_uninitialized_guards (s : AdapterState) (arg : Option Props)
    (hq : s.quill = none) :
    setTextListener s arg = (s, [], []) ∧
    setContentListener s arg = (s, [], []) ∧
    clearTextListener s = (s, [], []) ∧
    focusTextListener s = (s, [], []) ∧
    validateListener s = (s, Except.error JSError.typeError) := by
  obtain ⟨q, ps, f, vl⟩ := s
  have hq' : q = none := hq
  subst hq'
  exact ⟨rfl, rfl, rfl, rfl, rfl⟩

/-- Witness for C10 at the concrete uninitialized state. -/
theorem C10_uninitialized_guards_witness :
    clearTextListener stateNoQuill = (stateNoQuill, [], []) ∧
    validateListener stateNoQuill = (stateNoQuill, Except.error JSError.typeError) :=
  ⟨(C10_uninitialized_guards stateNoQuill none rfl).2.2.1,
    (C10_uninitialized_guards stateNoQuill none rfl).2.2.2.2⟩

/-- C4: an onFocused notification is emitted exactly once per
selection-change transition from no selection to some selection; the
window blur listener raises the pending-focus flag and emits nothing;
the flag can only be up after an event if that event was the blur or the
flag was already up (no other transition sets it); every emission clears
the flag; no event emits more than once; and from any flag state, a
stretch of events containing no blur and no null-to-some transition
emits at most once — at most one notification per
window-blur-then-refocus cycle. -/
theorem C4_focus_signaling :
    (∀ (flag : Bool) (r : Range),
      focusStep flag (.selectionChange (some r) none) = (false, 1)) ∧
    (∀ flag : Bool, focusStep flag .windowBlur = (true, 0)) ∧
    (∀ (flag : Bool) (e : FocusEvent), (focusStep flag e).1 = true →
      e = .windowBlur ∨ flag = true) ∧
    (∀ (flag : Bool) (e : FocusEvent), 0 < (focusStep flag e).2 →
      (focusStep flag e).1 = false) ∧
    (∀ (flag : Bool) (e : FocusEvent), (focusStep flag e).2 ≤ 1) ∧
    (∀ (flag : Bool) (es : List FocusEvent), (∀ e ∈ es, armsFocus e = false) →
      (focusRun flag es).2 ≤ 1) := by
  refine ⟨?_, ?_, ?_, ?_, ?_, ?_⟩
  · intro flag r
    cases flag <;> rfl
  · intro flag
    rfl
  · intro flag e h
    cases e with
    | windowBlur => exact Or.inl rfl
    | selectionChange r old =>
      by_cases hc : (flag || (r.isSome && old.isNone)) = true <;>
        simp [focusStep, hc] at h ⊢
      exact h
    | focusTextEvent =>
      cases flag <;> simp [focusStep] at h ⊢
  · intro flag e h
    cases e with
    | windowBlur => simp [focusStep] at h
    | selectionChange r old =>
      by_cases hc : (flag || (r.isSome && old.isNone)) = true <;>
        simp [focusStep, hc] at h ⊢
    | focusTextEvent =>
      cases flag <;> simp [focusStep] at h ⊢
  · intro flag e
    cases e with
    | windowBlur => simp [focusStep]
    | selectionChange r old => cases flag <;> cases r <;> cases old <;> simp [focusStep]
    | focusTextEvent => cases flag <;> simp [focusStep]
  · intro flag es h
    cases flag with
    | false => simp [focusRun_unarmed es h]
    | true => exact focusRun_pending es h

/-- Witness for C4: a fresh-selection transition emits once, and after a
blur a blur-free stretch emits at most once. -/
theorem C4_focus_signaling_witness :
    focusStep false (.selectionChange (some ⟨0, 0⟩) none) = (false, 1) ∧
    (focusRun true [FocusEvent.selectionChange (some ⟨1, 2⟩) (some ⟨0, 0⟩),
      FocusEvent.focusTextEvent]).2 ≤ 1 :=
  ⟨C4_focus_signaling.1 false ⟨0, 0⟩,
    C4_focus_signaling.2.2.2.2.2 true _ (by decide)⟩

/-- C5: absent or malformed-empty content payloads are no-ops that
report nothing: `updateText` returns immediately on any falsy payload;
the setText and setContent listeners leave the whole adapter state
unchanged, make no editor call and emit no event when the destructured
field is falsy or the argument object absent; a property-driven refresh
(`updateQuill`) with falsy content leaves the editor exactly as it was
when its enabled flag already reflects the readOnly property (the
unconditional enable call then rewrites the flag with its current
value), and it emits nothing. -/
theorem C5_absent_payload_noop (s : AdapterState) (ps : Props) (ed : Editor)
    (v : JValue) (arg : Option Props) :
    (v.truthy = false → updateText ps ed v = (ed, [])) ∧
    ((getProp (arg.getD []) "text").truthy = false →
      setTextListener s arg = (s, [], [])) ∧
    ((getProp (arg.getD []) "content").truthy = false →
      setContentListener s arg = (s, [], [])) ∧
    ((getProp ps "content").truthy = false →
      ed.enabled = !(getProp ps "readOnly").truthy →
      updateQuill ps ed = (ed, [QuillCall.enable ed.enabled])) := by
  refine ⟨fun hv => updateText_falsy ps ed v hv, fun ht => ?_, fun hcnt => ?_,
    fun hc he => ?_⟩
  · obtain ⟨q, ps', f, vl⟩ := s
    cases q with
    | none => rfl
    | some ed' => simp [setTextListener, updateText_falsy ps' ed' _ ht]
  · obtain ⟨q, ps', f, vl⟩ := s
    cases q with
    | none => rfl
    | some ed' => simp [setContentListener, updateText_falsy ps' ed' _ hcnt]
  · simp only [updateQuill, hc, Bool.false_eq_true, if_false, ← he, applyCall]
    rfl

/-- Witness for C5: an absent `text` field at a concrete state. -/
theorem C5_absent_payload_noop_witness :
    setTextListener stateHi none = (stateHi, [], []) ∧
    updateQuill [] edSample = (edSample, [QuillCall.enable edSample.enabled]) :=
  ⟨(C5_absent_payload_noop stateHi [] edSample .null none).2.1 (by decide),
    (C5_absent_payload_noop stateHi [] edSample .null none).2.2.2 (by decide) (by decide)⟩

/-- C6: for a truthy payload, when the configuration is not read-only
and the editor does not hold focus, `updateText` disables interaction
before applying the content and re-enables immediately after (leaving
the editor enabled); otherwise it makes no enable call and leaves the
enabled flag untouched. -/
theorem C6_disable_sandwich (ps : Props) (ed : Editor) (v : JValue)
    (hv : v.truthy = true) :
    ((!(getProp ps "readOnly").truthy && !ed.hasFocus) = true →
      (updateText ps ed v).2 =
        [QuillCall.enable false, routeCall v, QuillCall.enable true] ∧
      (updateText ps ed v).1.enabled = true) ∧
    ((!(getProp ps "readOnly").truthy && !ed.hasFocus) = false →
      (updateText ps ed v).2 = [routeCall v] ∧
      (updateText ps ed v).1.enabled = ed.enabled) := by
  rw [updateText_truthy ps ed v hv]
  constructor
  · intro hc
    simp [hc, applyCalls, applyCall]
  · intro hc
    simp [hc, applyCalls, routeCall_enabled]

/-- Witness for C6: unfocused, not read-only, concrete payload. -/
theorem C6_disable_sandwich_witness :
    (updateText [] edSample (.str "hi")).2 =
      [QuillCall.enable false, routeCall (.str "hi"), QuillCall.enable true] ∧
    (updateText [] edSample (.str "hi")).1.enabled = true :=
  (C6_disable_sandwich [] edSample (.str "hi") (by decide)).1 (by decide)

/-- C7: with the debounce flag enabled, keystrokes that each arrive
before the pending invocation's deadline keep superseding it, so the run
produces exactly one validation fire, at the last keystroke time plus
the window; and the window is `debounceTime`, defaulting to 300 when
that property is falsy or absent. -/
theorem C7_debounce_trailing (T t : Nat) (rest : List Nat) (ps : Props)
    (hchain : List.Chain (fun a b => b < a + T) t rest)
    (hdt : (getProp ps "debounceTime").truthy = false) :
    debounceRun T (t :: rest) = [rest.getLastD t + T] ∧
    effectiveDebounce ps = .num 300 := by
  constructor
  · show debounceSim T none (t :: rest) = _
    rw [debounceSim]
    exact debounceSim_pending T rest t hchain
  · simp [effectiveDebounce, hdt]

/-- Witness for C7: three keystrokes inside a 300-tick window fire once,
at 250 + 300. -/
theorem C7_debounce_trailing_witness :
    debounceRun 300 [0, 100, 250] = [550] ∧ effectiveDebounce [] = .num 300 :=
  C7_debounce_trailing 300 0 [100, 250] []
    (List.Chain.cons (by omega) (List.Chain.cons (by omega) List.Chain.nil))
    (by decide)

/-- C8: the clearText listener calls `updateText("")`, which returns
immediately on the empty (falsy) string, so the editor document,
selection/focus, enabled state, adapter state and emissions are all left
exactly as they were. -/
theorem C8_clearText_noop (s : AdapterState) :
    clearTextListener s = (s, [], []) := by
  obtain ⟨q, ps, f, vl⟩ := s
  cases q with
  | none => rfl
  | some ed =>
    simp [clearTextListener,
      updateText_falsy ps ed _ (by decide : (JValue.str "").truthy = false)]

end RTE
